import Mathlib

/-!
Shallow embedding of the ranking & filtering core of
`smart-nearby-places-recommender` (`src/App.js`).

Numbers held in JavaScript variables (coordinates, distances, relevance
scores, distance limits) are modelled as exact rationals `ℚ`; timestamps
(`Date.now()`) as `Nat`; star ratings as `Nat`.

The JavaScript state lives in React `useState` hooks; here it is an explicit
record, and every handler is a pure function from old state (plus the data it
reads) to new state.
-/

/-- A point of interest as built by `fetchPlaces` (App.js 278-287).
`savedAt` is the extra field a favorite snapshot carries
(`{ ...place, savedAt: Date.now() }`, App.js 310); `none` on a plain
search result. -/
structure Place where
  id : Int
  name : String
  type : String
  lat : ℚ
  lon : ℚ
  distance : ℚ
  relevance : ℚ
  tags : List (String × String) := []
  savedAt : Option Nat := none
deriving DecidableEq, Repr

/-- A review record as built by `addReview` (App.js 194-198). -/
structure Review where
  stars : Nat
  text : String
  time : Nat
deriving DecidableEq, Repr

/-- The `reviews` object: place id → ordered review list, newest first.
`reviews[placeId] || []` makes the lookup total with default `[]`, so we
model it as a total function. -/
def ReviewMap : Type := Int → List Review

/-- Result of `getReviewStats` (App.js 180-185). -/
structure ReviewStats where
  avg : ℚ
  count : Nat
deriving DecidableEq, Repr

/-- `getReviewStats` (App.js 180-185): mean star value and count of the
reviews recorded for a place; `{avg: 0, count: 0}` when there are none.
(`r.stars || 0` is the identity on a `Nat`-valued `stars` field.) -/
def getReviewStats (reviews : ReviewMap) (placeId : Int) : ReviewStats :=
  let list := reviews placeId
  if list.length = 0 then { avg := 0, count := 0 }
  else
    let sum := list.foldl (fun acc r => acc + (r.stars : ℚ)) 0
    { avg := sum / (list.length : ℚ), count := list.length }

/-- `pat` starts the character list `s` (auxiliary for `jsIncludes`). -/
def charsStartWith : List Char → List Char → Bool
  | [], _ => true
  | _ :: _, [] => false
  | p :: ps, c :: cs => p == c && charsStartWith ps cs

/-- `pat` occurs contiguously somewhere in `s`. -/
def charsContain (s pat : List Char) : Bool :=
  match s with
  | [] => pat.isEmpty
  | _ :: rest => charsStartWith pat s || charsContain rest pat

/-- Model of JavaScript `s.includes(q)`: `q` is a contiguous substring of
`s` (the empty string is a substring of everything). -/
def jsIncludes (s q : String) : Bool :=
  charsContain s.data q.data

/-- Model of JavaScript `s.toLowerCase()`: lower-case every character. -/
def jsToLower (s : String) : String :=
  String.mk (s.data.map Char.toLower)

/-- Model of JavaScript `s.trim()`: strip leading and trailing whitespace. -/
def jsTrim (s : String) : String :=
  String.mk (((s.data.dropWhile Char.isWhitespace).reverse.dropWhile
    Char.isWhitespace).reverse)

/-- Lexicographic order on character lists (auxiliary for `jsLocaleLe`). -/
def charsLe : List Char → List Char → Bool
  | [], _ => true
  | _ :: _, [] => false
  | a :: as, b :: bs => if a = b then charsLe as bs else decide (a < b)

/-- Model of JavaScript `a.localeCompare(b) <= 0` as code-point order
(`localeCompare` itself is locale-dependent; only totality and
transitivity of the order matter to the pipeline). -/
def jsLocaleLe (a b : String) : Bool :=
  charsLe a.data b.data

/-- The view state read by the `visiblePlaces` memo (App.js 314-332):
active tab, distance limit, search box text and sort key. Tab and sort key
are strings in the source, so they are strings here. -/
structure ViewState where
  tab : String
  distanceLimit : ℚ
  searchText : String
  sortBy : String

/-- `tab === "saved" ? favorites : places` (App.js 316). -/
def baseCollection (tab : String) (places favorites : List Place) : List Place :=
  if tab = "saved" then favorites else places

/-- Base collection after the discover-tab distance filter
(App.js 316-319): `arr.filter((p) => p.distance <= distanceLimit)`
applied only when `tab === "discover"`. -/
def afterDistanceFilter (vs : ViewState) (places favorites : List Place) : List Place :=
  let arr := baseCollection vs.tab places favorites
  if vs.tab = "discover" then arr.filter (fun p => decide (p.distance ≤ vs.distanceLimit))
  else arr

/-- After the free-text filter (App.js 315, 321):
`q = searchText.trim().toLowerCase()`; when `q` is non-empty keep the
places with `(p.name || "").toLowerCase().includes(q)` (the `|| ""` is the
identity on a total `String` field). -/
def afterSearchFilter (vs : ViewState) (places favorites : List Place) : List Place :=
  let q := jsToLower (jsTrim vs.searchText)
  let arr := afterDistanceFilter vs places favorites
  if q = "" then arr
  else arr.filter (fun p => jsIncludes (jsToLower p.name) q)

/-- The sort step (App.js 323-329). Each branch sorts a spread copy with a
numeric comparator; `Array.prototype.sort` is stable and, for comparator
`cmp`, puts `a` no later than `b` when `cmp a b ≤ 0`, which is the stable
merge sort over `le a b := cmp a b ≤ 0`.
`a.distance - b.distance ≤ 0` is `a.distance ≤ b.distance`;
`b.relevance - a.relevance ≤ 0` is `b.relevance ≤ a.relevance` (the
`|| 0` defaults are the identity on total `ℚ` fields); the rating
comparator compares review means the same way. `localeCompare` in the
`az` branch is modelled as code-point order on names. -/
def sortStep (sortBy : String) (reviews : ReviewMap) (arr : List Place) : List Place :=
  if sortBy = "distance" then
    arr.mergeSort (fun a b => decide (a.distance ≤ b.distance))
  else if sortBy = "az" then
    arr.mergeSort (fun a b => jsLocaleLe a.name b.name)
  else if sortBy = "rating" then
    arr.mergeSort (fun a b =>
      decide ((getReviewStats reviews b.id).avg ≤ (getReviewStats reviews a.id).avg))
  else
    arr.mergeSort (fun a b => decide (b.relevance ≤ a.relevance))

/-- The `visiblePlaces` memo (App.js 314-332): choose the base collection
by tab, distance-filter in discover mode, text-filter, then sort. -/
def visiblePlaces (vs : ViewState) (places favorites : List Place)
    (reviews : ReviewMap) : List Place :=
  sortStep vs.sortBy reviews (afterSearchFilter vs places favorites)

/-- The full component state (the `useState` hooks of `App`, App.js
105-145) that could in principle influence a recomputation; the
`visiblePlaces` memo reads only seven of these fields. -/
structure AppState where
  location : Option (ℚ × ℚ)
  customLocation : String
  searchCenterLat : Option ℚ
  searchCenterLng : Option ℚ
  searchCenterLabel : Option String
  places : List Place
  mood : String
  loading : Bool
  distanceLimit : ℚ
  sortBy : String
  searchText : String
  tab : String
  selectedPlace : Option Place
  favorites : List Place
  reviews : ReviewMap
  reviewStars : Nat
  reviewText : String

/-- `visiblePlaces` as a function of the whole component state. -/
def visiblePlacesOf (s : AppState) : List Place :=
  visiblePlaces { tab := s.tab, distanceLimit := s.distanceLimit,
                  searchText := s.searchText, sortBy := s.sortBy }
    s.places s.favorites s.reviews

/-- The two state arrays the pipeline reads (`places`, `favorites`). -/
structure Store where
  places : List Place
  favorites : List Place
deriving DecidableEq, Repr

/-- A JavaScript array-valued binding: either an alias of one of the two
state arrays, or a freshly allocated array. -/
inductive ArrRef where
  | placesArr : ArrRef
  | favoritesArr : ArrRef
  | freshArr : List Place → ArrRef

/-- Read the array a binding denotes. -/
def ArrRef.deref (st : Store) : ArrRef → List Place
  | .placesArr => st.places
  | .favoritesArr => st.favorites
  | .freshArr l => l

/-- `Array.prototype.filter` allocates a new array. -/
def jsFilter (st : Store) (pred : Place → Bool) (a : ArrRef) : ArrRef :=
  .freshArr ((a.deref st).filter pred)

/-- The spread `[...arr]` allocates a shallow copy. -/
def jsSpread (st : Store) (a : ArrRef) : ArrRef :=
  .freshArr (a.deref st)

/-- `Array.prototype.sort` sorts its receiver in place: on an alias of a
state array it rewrites that array inside the store. -/
def jsSortInPlace (st : Store) (le : Place → Place → Bool) :
    ArrRef → ArrRef × Store
  | .placesArr => (.placesArr, { st with places := st.places.mergeSort le })
  | .favoritesArr => (.favoritesArr, { st with favorites := st.favorites.mergeSort le })
  | .freshArr l => (.freshArr (l.mergeSort le), st)

/-- The `visiblePlaces` memo written against the store model, mirroring
App.js 314-332 line by line: the base binding aliases a state array, each
filter allocates, and each sort branch sorts the spread copy `[...arr]`.
Returns the rendered list together with the (possibly updated) store. -/
def visiblePlacesImp (vs : ViewState) (reviews : ReviewMap) (st : Store) :
    List Place × Store :=
  let q := jsToLower (jsTrim vs.searchText)
  let base : ArrRef := if vs.tab = "saved" then .favoritesArr else .placesArr
  let arr := base
  let arr := if vs.tab = "discover" then
      jsFilter st (fun p => decide (p.distance ≤ vs.distanceLimit)) arr
    else arr
  let arr := if q = "" then arr
    else jsFilter st (fun p => jsIncludes (jsToLower p.name) q) arr
  let sorted :=
    if vs.sortBy = "distance" then
      jsSortInPlace st (fun a b => decide (a.distance ≤ b.distance)) (jsSpread st arr)
    else if vs.sortBy = "az" then
      jsSortInPlace st (fun a b => jsLocaleLe a.name b.name) (jsSpread st arr)
    else if vs.sortBy = "rating" then
      jsSortInPlace st (fun a b =>
        decide ((getReviewStats reviews b.id).avg ≤ (getReviewStats reviews a.id).avg))
        (jsSpread st arr)
    else
      jsSortInPlace st (fun a b => decide (b.relevance ≤ a.relevance)) (jsSpread st arr)
  (sorted.1.deref sorted.2, sorted.2)

/-- `isFav` (App.js 305): some favorite carries this id. -/
def isFav (favorites : List Place) (id : Int) : Bool :=
  favorites.any (fun x => x.id == id)

/-- `toggleFav` (App.js 307-312): if an entry with the place's id is
present, keep only the entries with a different id; otherwise prepend
`{ ...place, savedAt: Date.now() }`. `now` stands for `Date.now()`. -/
def toggleFav (now : Nat) (place : Place) (prev : List Place) : List Place :=
  if prev.any (fun x => x.id == place.id) then
    prev.filter (fun x => x.id != place.id)
  else
    { place with savedAt := some now } :: prev

/-- `addReview` (App.js 187-208): trim the comment; if it is empty the
review map is left unchanged (the code alerts and returns), otherwise
prepend `{ stars, text, time: Date.now() }` to this place's list
(`{ ...prev, [placeId]: [newReview, ...old] }` with
`old = prev[placeId] || []`). The `alert` and the resetting of the two
input hooks are UI effects outside the review map. -/
def addReview (reviewStars : Nat) (reviewText : String) (now : Nat)
    (placeId : Int) (reviews : ReviewMap) : ReviewMap :=
  let text := jsTrim reviewText
  if text = "" then reviews
  else fun id =>
    if id = placeId then { stars := reviewStars, text := text, time := now } :: reviews id
    else reviews id

/-- The active search center (`searchCenter` hook): `{lat, lng, label}`. -/
structure SearchCenter where
  lat : ℚ
  lng : ℚ
  label : Option String

/-- A raw Overpass element as consumed by `fetchPlaces` (App.js 267-289):
optional direct coordinates (`el.lat`, `el.lon`), an optional computed
center (`el.center`), and the optional tag object `el.tags`. -/
structure RawElement where
  id : Int
  lat : Option ℚ
  lon : Option ℚ
  center : Option (ℚ × ℚ)
  tags : Option (List (String × String))

/-- JavaScript truthiness of an optional number: `undefined`, and the
number `0`, are falsy. -/
def qTruthy : Option ℚ → Bool
  | none => false
  | some x => !decide (x = 0)

/-- JavaScript `a || b` on optional numbers: `b` unless `a` is truthy. -/
def jsOrQ (a b : Option ℚ) : Option ℚ :=
  if qTruthy a then a else b

/-- JavaScript truthiness of an optional string: `undefined` and `""` are
falsy. -/
def strTruthy : Option String → Bool
  | none => false
  | some s => !decide (s = "")

/-- JavaScript `a || b` on optional strings. -/
def jsOrS (a b : Option String) : Option String :=
  if strTruthy a then a else b

/-- JavaScript `a || dflt` with a string default. -/
def jsOrStr (a : Option String) (dflt : String) : String :=
  (jsOrS a (some dflt)).getD dflt

/-- `el.tags?.key`: optional chaining into the tag object. -/
def lookupTag (tags : Option (List (String × String))) (k : String) : Option String :=
  match tags with
  | none => none
  | some ts => ts.lookup k

/-- The relevance formula of `fetchPlaces` (App.js 276):
`(1 / (dist + 1)) * 1000000`. -/
def relevanceOf (dist : ℚ) : ℚ :=
  (1 / (dist + 1)) * 1000000

/-- The per-element mapping inside `fetchPlaces` (App.js 268-288),
parameterised by the haversine distance function `hav` (a real-valued
transcendental computation, abstracted here; `haversineMeters` always
returns a non-negative number):
`lat = el.lat || el.center?.lat`, `lon = el.lon || el.center?.lon`,
`name = el.tags?.name || "Unnamed Place"`,
`type = el.tags?.amenity || el.tags?.tourism || "place"`,
`if (!lat || !lon) return null`, else build the Place.
`filter(Boolean)` over the mapped array is `Option.filterMap` of this. -/
def ingestElement (hav : ℚ → ℚ → ℚ → ℚ → ℚ) (center : SearchCenter)
    (el : RawElement) : Option Place :=
  let lat := jsOrQ el.lat (el.center.map Prod.fst)
  let lon := jsOrQ el.lon (el.center.map Prod.snd)
  let name := jsOrStr (lookupTag el.tags "name") "Unnamed Place"
  let ptype := jsOrStr (jsOrS (lookupTag el.tags "amenity") (lookupTag el.tags "tourism")) "place"
  if !qTruthy lat || !qTruthy lon then none
  else
    let latv := lat.getD 0
    let lonv := lon.getD 0
    let dist := hav center.lat center.lng latv lonv
    some { id := el.id, name := name, type := ptype, lat := latv, lon := lonv,
           distance := dist, relevance := relevanceOf dist,
           tags := el.tags.getD [], savedAt := none }

/-- The whole `results` construction of `fetchPlaces`:
`(data.elements || []).map(...).filter(Boolean)`. -/
def ingestResults (hav : ℚ → ℚ → ℚ → ℚ → ℚ) (center : SearchCenter)
    (els : List RawElement) : List Place :=
  els.filterMap (ingestElement hav center)

/-! ### Concrete sample data used by witnesses -/

/-- "Corner Cafe", 500 m away. -/
def cornerCafe : Place :=
  { id := 1, name := "Corner Cafe", type := "cafe", lat := 1, lon := 1,
    distance := 500, relevance := 900 }

/-- "Book Store", 2000 m away. -/
def bookStore : Place :=
  { id := 2, name := "Book Store", type := "books", lat := 1, lon := 1,
    distance := 2000, relevance := 300 }

/-- A place sitting exactly at the 10 km distance limit. -/
def edgePlace : Place :=
  { id := 3, name := "Edge Cafe", type := "cafe", lat := 1, lon := 1,
    distance := 10000, relevance := 50 }

/-- A favorite snapshot 50 km away from the current search center. -/
def farFavorite : Place :=
  { id := 4, name := "Far Resort", type := "hotel", lat := 2, lon := 2,
    distance := 50000, relevance := 10, savedAt := some 5 }

/-- A review map holding one five-star review for place 1. -/
def sampleReviews : ReviewMap :=
  fun i => if i = 1 then [{ stars := 5, text := "Great coffee", time := 100 }] else []

/-!  ## Helper lemmas -/

theorem keyAsc_trans (f : Place → ℚ) (a b c : Place)
    (h₁ : decide (f a ≤ f b) = true) (h₂ : decide (f b ≤ f c) = true) :
    decide (f a ≤ f c) = true := by
  simp only [decide_eq_true_eq] at h₁ h₂ ⊢
  exact le_trans h₁ h₂

theorem keyAsc_total (f : Place → ℚ) (a b : Place) :
    (decide (f a ≤ f b) || decide (f b ≤ f a)) = true := by
  simp only [Bool.or_eq_true, decide_eq_true_eq]
  exact le_total _ _

theorem keyDesc_trans (f : Place → ℚ) (a b c : Place)
    (h₁ : decide (f b ≤ f a) = true) (h₂ : decide (f c ≤ f b) = true) :
    decide (f c ≤ f a) = true := by
  simp only [decide_eq_true_eq] at h₁ h₂ ⊢
  exact le_trans h₂ h₁

theorem keyDesc_total (f : Place → ℚ) (a b : Place) :
    (decide (f b ≤ f a) || decide (f a ≤ f b)) = true := by
  simp only [Bool.or_eq_true, decide_eq_true_eq]
  exact le_total _ _

/-- On any state with `sortBy = "distance"`, the pipeline is the stable
merge sort of the filtered base by ascending distance. -/
theorem visiblePlaces_distance_eq (vs : ViewState) (places favorites : List Place)
    (reviews : ReviewMap) (h : vs.sortBy = "distance") :
    visiblePlaces vs places favorites reviews
      = (afterSearchFilter vs places favorites).mergeSort
          (fun a b => decide (a.distance ≤ b.distance)) := by
  unfold visiblePlaces sortStep
  rw [h, if_pos rfl]

/-- On any state with `sortBy = "relevance"`, the pipeline is the stable
merge sort of the filtered base by descending relevance. -/
theorem visiblePlaces_relevance_eq (vs : ViewState) (places favorites : List Place)
    (reviews : ReviewMap) (h : vs.sortBy = "relevance") :
    visiblePlaces vs places favorites reviews
      = (afterSearchFilter vs places favorites).mergeSort
          (fun a b => decide (b.relevance ≤ a.relevance)) := by
  unfold visiblePlaces sortStep
  rw [h]
  rw [if_neg (by decide), if_neg (by decide), if_neg (by decide)]

/-- On any state with `sortBy = "rating"`, the pipeline is the stable merge
sort of the filtered base by descending review mean. -/
theorem visiblePlaces_rating_eq (vs : ViewState) (places favorites : List Place)
    (reviews : ReviewMap) (h : vs.sortBy = "rating") :
    visiblePlaces vs places favorites reviews
      = (afterSearchFilter vs places favorites).mergeSort
          (fun a b =>
            decide ((getReviewStats reviews b.id).avg ≤ (getReviewStats reviews a.id).avg)) := by
  unfold visiblePlaces sortStep
  rw [h]
  rw [if_neg (by decide), if_neg (by decide), if_pos rfl]

/-- Sorting is a permutation, so pipeline membership is membership in the
filtered base. -/
theorem mem_visiblePlaces_iff (vs : ViewState) (places favorites : List Place)
    (reviews : ReviewMap) (p : Place) :
    p ∈ visiblePlaces vs places favorites reviews
      ↔ p ∈ afterSearchFilter vs places favorites := by
  unfold visiblePlaces sortStep
  split_ifs <;> exact List.mem_mergeSort

/-- Whatever survives the text filter came from the distance-filtered base. -/
theorem mem_afterDistanceFilter_of_mem_afterSearchFilter
    (vs : ViewState) (places favorites : List Place) (p : Place)
    (hp : p ∈ afterSearchFilter vs places favorites) :
    p ∈ afterDistanceFilter vs places favorites := by
  simp only [afterSearchFilter] at hp
  split_ifs at hp with h
  · exact hp
  · exact (List.mem_filter.mp hp).1

/-- A distance-filtered element that passes the text predicate (or when the
trimmed query is empty) survives the text filter. -/
theorem mem_afterSearchFilter_intro (vs : ViewState) (places favorites : List Place)
    (p : Place) (hp : p ∈ afterDistanceFilter vs places favorites)
    (hq : jsToLower (jsTrim vs.searchText) = ""
      ∨ jsIncludes (jsToLower p.name) (jsToLower (jsTrim vs.searchText)) = true) :
    p ∈ afterSearchFilter vs places favorites := by
  simp only [afterSearchFilter]
  split_ifs with h
  · exact hp
  · rcases hq with hq | hq
    · exact absurd hq h
    · exact List.mem_filter.mpr ⟨hp, hq⟩

/-- `(1 / (d + 1)) * 1000000` is `1000000 / (d + 1)`. -/
theorem relevanceOf_eq_div (d : ℚ) : relevanceOf d = 1000000 / (d + 1) := by
  unfold relevanceOf
  rw [one_div, inv_mul_eq_div]

/-- Star sum lower bound: with every star at least 1, the fold is at least
`init` plus the length. -/
theorem foldl_stars_ge : ∀ (l : List Review), (∀ r ∈ l, 1 ≤ r.stars) →
    ∀ init : ℚ, init + l.length ≤ l.foldl (fun acc r => acc + (r.stars : ℚ)) init
  | [], _, init => by simp
  | r :: t, hs, init => by
    have h1 : (1 : ℚ) ≤ (r.stars : ℚ) := by exact_mod_cast hs r (by simp)
    have ih := foldl_stars_ge t (fun x hx => hs x (by simp [hx])) (init + (r.stars : ℚ))
    simp only [List.foldl_cons, List.length_cons]
    push_cast at ih ⊢
    linarith

/-- A place with at least one review, all stars at least 1, has mean at
least 1. -/
theorem getReviewStats_avg_ge_one (reviews : ReviewMap) (pid : Int)
    (hne : reviews pid ≠ []) (hs : ∀ r ∈ reviews pid, 1 ≤ r.stars) :
    1 ≤ (getReviewStats reviews pid).avg := by
  unfold getReviewStats
  have hlen : (reviews pid).length ≠ 0 := by simpa using hne
  rw [if_neg hlen]
  have hpos : (0 : ℚ) < (reviews pid).length := by
    exact_mod_cast Nat.pos_of_ne_zero hlen
  show 1 ≤ (reviews pid).foldl (fun acc r => acc + (r.stars : ℚ)) 0 / (reviews pid).length
  rw [one_le_div hpos]
  simpa using foldl_stars_ge (reviews pid) hs 0

/-- A place with no recorded reviews has mean 0. -/
theorem getReviewStats_avg_of_empty (reviews : ReviewMap) (pid : Int)
    (h : reviews pid = []) : (getReviewStats reviews pid).avg = 0 := by
  unfold getReviewStats
  rw [h]
  rfl

/-!  ## Claims -/

/-- C1: in `discover` mode every pipeline output element satisfies
`distanceMeters ≤ distanceLimitMeters`, with the bound inclusive (any base
element at distance exactly the limit, passing the text filter, is kept);
in `saved` mode no distance filtering occurs (every favorite passing the
text filter is in the output, at any distance). -/
theorem distance_limit_filter (vs : ViewState) (places favorites : List Place)
    (reviews : ReviewMap) :
    (vs.tab = "discover" →
      (∀ p ∈ visiblePlaces vs places favorites reviews,
          p.distance ≤ vs.distanceLimit)
      ∧ ∀ p ∈ places, p.distance ≤ vs.distanceLimit →
          (jsToLower (jsTrim vs.searchText) = ""
            ∨ jsIncludes (jsToLower p.name) (jsToLower (jsTrim vs.searchText)) = true) →
          p ∈ visiblePlaces vs places favorites reviews)
    ∧ (vs.tab = "saved" →
      ∀ p ∈ favorites,
        (jsToLower (jsTrim vs.searchText) = ""
          ∨ jsIncludes (jsToLower p.name) (jsToLower (jsTrim vs.searchText)) = true) →
        p ∈ visiblePlaces vs places favorites reviews) := by
  constructor
  · intro hd
    constructor
    · intro p hp
      have h1 := mem_afterDistanceFilter_of_mem_afterSearchFilter vs places favorites p
        ((mem_visiblePlaces_iff vs places favorites reviews p).mp hp)
      unfold afterDistanceFilter at h1
      rw [if_pos hd] at h1
      simpa using (List.mem_filter.mp h1).2
    · intro p hp hdist hq
      rw [mem_visiblePlaces_iff]
      refine mem_afterSearchFilter_intro vs places favorites p ?_ hq
      unfold afterDistanceFilter baseCollection
      rw [if_pos hd, hd, if_neg (by decide)]
      exact List.mem_filter.mpr ⟨hp, by simpa using hdist⟩
  · intro hs p hp hq
    rw [mem_visiblePlaces_iff]
    refine mem_afterSearchFilter_intro vs places favorites p ?_ hq
    unfold afterDistanceFilter baseCollection
    rw [hs]
    rw [if_neg (by decide), if_pos rfl]
    exact hp

/-- C1 witness: a place at exactly the 10 km limit is kept in discover
mode, and a favorite 50 km away is kept in saved mode with the same
10 km limit. -/
theorem distance_limit_filter_witness :
    edgePlace ∈ visiblePlaces
        { tab := "discover", distanceLimit := 10000, searchText := "", sortBy := "relevance" }
        [cornerCafe, edgePlace] [] (fun _ => [])
    ∧ farFavorite ∈ visiblePlaces
        { tab := "saved", distanceLimit := 10000, searchText := "", sortBy := "relevance" }
        [] [farFavorite] (fun _ => []) :=
  ⟨((distance_limit_filter _ _ _ _).1 rfl).2 edgePlace (by simp) (by decide) (Or.inl rfl),
   (distance_limit_filter _ _ _ _).2 rfl farFavorite (by simp) (Or.inl rfl)⟩

/-- C5 (amended): the pipeline trims and lowercases `searchText` first;
when the trimmed, lowercased text is empty the filter is disabled,
otherwise exactly those Places whose lowercased name contains the trimmed
lowercased text as a substring survive (membership in the output is
otherwise membership in the distance-filtered base). -/
theorem search_text_filter (vs : ViewState) (places favorites : List Place)
    (reviews : ReviewMap) :
    (jsToLower (jsTrim vs.searchText) = "" →
      ∀ p, p ∈ visiblePlaces vs places favorites reviews
        ↔ p ∈ afterDistanceFilter vs places favorites)
    ∧ (jsToLower (jsTrim vs.searchText) ≠ "" →
      ∀ p, p ∈ visiblePlaces vs places favorites reviews
        ↔ p ∈ afterDistanceFilter vs places favorites
          ∧ jsIncludes (jsToLower p.name) (jsToLower (jsTrim vs.searchText)) = true) := by
  constructor
  · intro h p
    rw [mem_visiblePlaces_iff]
    simp only [afterSearchFilter]
    rw [if_pos h]
  · intro h p
    rw [mem_visiblePlaces_iff]
    simp only [afterSearchFilter]
    rw [if_neg h]
    exact List.mem_filter

/-- C5 counterexample: `searchText = "cafe "` (with a trailing space) is
non-empty and its lowercased form is not a substring of the lowercased
name "corner cafe", so by the claim the place should be dropped — yet the
pipeline keeps it, because the code trims the search text first. -/
theorem search_text_filter_counterexample :
    jsIncludes (jsToLower "Corner Cafe") (jsToLower "cafe ") = false
    ∧ "cafe " ≠ ""
    ∧ cornerCafe ∈ visiblePlaces
        { tab := "discover", distanceLimit := 10000, searchText := "cafe ", sortBy := "relevance" }
        [cornerCafe, bookStore] [] (fun _ => []) := by
  refine ⟨by decide, by decide, ?_⟩
  rw [mem_visiblePlaces_iff]
  decide

/-- C5 witness: filtering by "cafe" keeps "Corner Cafe" and drops
"Book Store". -/
theorem search_text_filter_witness :
    cornerCafe ∈ visiblePlaces
        { tab := "discover", distanceLimit := 10000, searchText := "cafe", sortBy := "relevance" }
        [cornerCafe, bookStore] [] (fun _ => [])
    ∧ bookStore ∉ visiblePlaces
        { tab := "discover", distanceLimit := 10000, searchText := "cafe", sortBy := "relevance" }
        [cornerCafe, bookStore] [] (fun _ => []) := by
  constructor
  · exact ((search_text_filter _ [cornerCafe, bookStore] [] (fun _ => [])).2
      (by decide) cornerCafe).mpr ⟨by decide, by decide⟩
  · intro hm
    have h := ((search_text_filter _ [cornerCafe, bookStore] [] (fun _ => [])).2
      (by decide) bookStore).mp hm
    exact absurd h.2 (by decide)

/-- C2: for every set of Places and every view state, when
`sortKey = distance` the pipeline output is non-decreasing in
`distanceMeters`, and when `sortKey = relevance` the output is
non-increasing in `relevanceScore`. -/
theorem sort_key_ordering (vs : ViewState) (places favorites : List Place)
    (reviews : ReviewMap) :
    (vs.sortBy = "distance" →
      (visiblePlaces vs places favorites reviews).Pairwise
        (fun a b => a.distance ≤ b.distance))
    ∧ (vs.sortBy = "relevance" →
      (visiblePlaces vs places favorites reviews).Pairwise
        (fun a b => b.relevance ≤ a.relevance)) := by
  constructor
  · intro h
    rw [visiblePlaces_distance_eq vs places favorites reviews h]
    have hs := List.sorted_mergeSort
      (keyAsc_trans (fun p => p.distance)) (keyAsc_total (fun p => p.distance))
      (afterSearchFilter vs places favorites)
    exact hs.imp (fun hab => by simpa using hab)
  · intro h
    rw [visiblePlaces_relevance_eq vs places favorites reviews h]
    have hs := List.sorted_mergeSort
      (keyDesc_trans (fun p => p.relevance)) (keyDesc_total (fun p => p.relevance))
      (afterSearchFilter vs places favorites)
    exact hs.imp (fun hab => by simpa using hab)

/-- C2 witness at a concrete two-place state. -/
theorem sort_key_ordering_witness :
    (visiblePlaces { tab := "discover", distanceLimit := 10000, searchText := "", sortBy := "distance" }
        [{ id := 1, name := "A", type := "cafe", lat := 1, lon := 1, distance := 2000, relevance := 300 },
         { id := 2, name := "B", type := "cafe", lat := 1, lon := 1, distance := 500, relevance := 900 }]
        [] (fun _ => [])).Pairwise (fun a b => a.distance ≤ b.distance)
    ∧ (visiblePlaces { tab := "discover", distanceLimit := 10000, searchText := "", sortBy := "relevance" }
        [{ id := 1, name := "A", type := "cafe", lat := 1, lon := 1, distance := 2000, relevance := 300 },
         { id := 2, name := "B", type := "cafe", lat := 1, lon := 1, distance := 500, relevance := 900 }]
        [] (fun _ => [])).Pairwise (fun a b => b.relevance ≤ a.relevance) :=
  ⟨(sort_key_ordering _ _ _ _).1 rfl, (sort_key_ordering _ _ _ _).2 rfl⟩

/-- C6: the pipeline reads only the tuple (places, favorites, activeTab,
distanceLimit, searchText, sortKey, review mapping): two component states
agreeing on those seven fields — whatever their mood, loading flag,
selection, location or draft-review fields — produce identical output
sequences. -/
theorem pipeline_deterministic (s₁ s₂ : AppState)
    (hpl : s₁.places = s₂.places) (hfav : s₁.favorites = s₂.favorites)
    (htab : s₁.tab = s₂.tab) (hdl : s₁.distanceLimit = s₂.distanceLimit)
    (hst : s₁.searchText = s₂.searchText) (hsk : s₁.sortBy = s₂.sortBy)
    (hrev : s₁.reviews = s₂.reviews) :
    visiblePlacesOf s₁ = visiblePlacesOf s₂ := by
  unfold visiblePlacesOf
  rw [hpl, hfav, htab, hdl, hst, hsk, hrev]

/-- C6 witness: two states differing in mood, loading, selection and draft
review text, but agreeing on the pipeline inputs. -/
theorem pipeline_deterministic_witness :
    visiblePlacesOf
      { location := none, customLocation := "", searchCenterLat := none,
        searchCenterLng := none, searchCenterLabel := none,
        places := [{ id := 1, name := "A", type := "cafe", lat := 1, lon := 1,
                     distance := 500, relevance := 900 }],
        mood := "work", loading := false, distanceLimit := 10000,
        sortBy := "relevance", searchText := "", tab := "discover",
        selectedPlace := none, favorites := [], reviews := fun _ => [],
        reviewStars := 5, reviewText := "" }
    = visiblePlacesOf
      { location := some (2, 3), customLocation := "Bangalore", searchCenterLat := some 2,
        searchCenterLng := some 3, searchCenterLabel := some "Bangalore",
        places := [{ id := 1, name := "A", type := "cafe", lat := 1, lon := 1,
                     distance := 500, relevance := 900 }],
        mood := "tourist", loading := true, distanceLimit := 10000,
        sortBy := "relevance", searchText := "", tab := "discover",
        selectedPlace := none, favorites := [], reviews := fun _ => [],
        reviewStars := 1, reviewText := "draft" } :=
  pipeline_deterministic _ _ rfl rfl rfl rfl rfl rfl rfl

/-- C7: the pipeline never mutates the base collections: run against the
store model it returns the store unchanged, its output agrees with the
purely functional pipeline, and a later recomputation with any other view
state (e.g. a different sort key) reads the same base collections. -/
theorem pipeline_no_mutation (vs : ViewState) (reviews : ReviewMap) (st : Store) :
    (visiblePlacesImp vs reviews st).2 = st
    ∧ (visiblePlacesImp vs reviews st).1
        = visiblePlaces vs st.places st.favorites reviews
    ∧ ∀ vs' : ViewState,
        visiblePlacesImp vs' reviews (visiblePlacesImp vs reviews st).2
          = visiblePlacesImp vs' reviews st := by
  have key : (visiblePlacesImp vs reviews st).2 = st
      ∧ (visiblePlacesImp vs reviews st).1
        = visiblePlaces vs st.places st.favorites reviews := by
    unfold visiblePlacesImp visiblePlaces sortStep afterSearchFilter afterDistanceFilter baseCollection
    unfold jsSortInPlace jsSpread jsFilter ArrRef.deref
    split_ifs <;> simp_all [ArrRef.deref] <;> (congr 1; split_ifs <;> rfl)
  exact ⟨key.1, key.2, fun vs' => by rw [key.1]⟩

/-- C3: every Place ingested from a search response has
`relevanceScore = 1000000 / (distanceMeters + 1)`; the formula is strictly
decreasing on non-negative distances and strictly positive there, and at
distance 0 it is exactly 1000000 (no division by zero). -/
theorem relevance_score_spec :
    (∀ (hav : ℚ → ℚ → ℚ → ℚ → ℚ) (center : SearchCenter) (el : RawElement) (p : Place),
      ingestElement hav center el = some p →
        p.relevance = 1000000 / (p.distance + 1))
    ∧ (∀ d₁ d₂ : ℚ, 0 ≤ d₁ → d₁ < d₂ → relevanceOf d₂ < relevanceOf d₁)
    ∧ (∀ d : ℚ, 0 ≤ d → 0 < relevanceOf d)
    ∧ relevanceOf 0 = 1000000 := by
  refine ⟨?_, ?_, ?_, ?_⟩
  · intro hav center el p hp
    simp only [ingestElement] at hp
    split at hp
    · exact absurd hp (by simp)
    · rw [Option.some.injEq] at hp
      subst hp
      exact relevanceOf_eq_div _
  · intro d₁ d₂ h0 h
    rw [relevanceOf_eq_div, relevanceOf_eq_div]
    exact div_lt_div_of_pos_left (by norm_num) (by linarith) (by linarith)
  · intro d h0
    rw [relevanceOf_eq_div]
    exact div_pos (by norm_num) (by linarith)
  · rw [relevanceOf_eq_div]
    norm_num

/-- C3 witness: a concrete element ingested at distance 3, plus the
monotonicity and positivity facts at distances 0 and 1. -/
theorem relevance_score_spec_witness :
    relevanceOf 3 = 1000000 / ((3 : ℚ) + 1)
    ∧ relevanceOf 1 < relevanceOf 0
    ∧ 0 < relevanceOf 0 := by
  refine ⟨?_, ?_, ?_⟩
  · exact relevance_score_spec.1 (fun _ _ _ _ => 3)
      { lat := 0, lng := 0, label := none }
      { id := 7, lat := some 1, lon := some 2, center := none, tags := none }
      { id := 7, name := "Unnamed Place", type := "place", lat := 1, lon := 2,
        distance := 3, relevance := relevanceOf 3, tags := [], savedAt := none }
      rfl
  · exact relevance_score_spec.2.1 0 1 le_rfl (by norm_num)
  · exact relevance_score_spec.2.2.1 0 le_rfl

/-- C4: with `sortKey = rating` the pipeline output is non-increasing in
the review mean (zero-review Places having mean 0); if every recorded
star value lies in 1..5, then no zero-review Place ever precedes a
reviewed Place; and Places with equal means keep their pre-sort order
(stability of the sort). -/
theorem rating_sort_spec (vs : ViewState) (places favorites : List Place)
    (reviews : ReviewMap) (hk : vs.sortBy = "rating") :
    (visiblePlaces vs places favorites reviews).Pairwise
      (fun a b => (getReviewStats reviews b.id).avg ≤ (getReviewStats reviews a.id).avg)
    ∧ ((∀ pid : Int, ∀ r ∈ reviews pid, 1 ≤ r.stars ∧ r.stars ≤ 5) →
      (visiblePlaces vs places favorites reviews).Pairwise
        (fun a b => reviews a.id = [] → reviews b.id = []))
    ∧ (∀ a b : Place,
        (getReviewStats reviews a.id).avg = (getReviewStats reviews b.id).avg →
        List.Sublist [a, b] (afterSearchFilter vs places favorites) →
        List.Sublist [a, b] (visiblePlaces vs places favorites reviews)) := by
  have htrans := keyDesc_trans (fun p : Place => (getReviewStats reviews p.id).avg)
  have htotal := keyDesc_total (fun p : Place => (getReviewStats reviews p.id).avg)
  have hsorted := List.sorted_mergeSort
    htrans htotal (afterSearchFilter vs places favorites)
  refine ⟨?_, ?_, ?_⟩
  · rw [visiblePlaces_rating_eq vs places favorites reviews hk]
    exact hsorted.imp (fun h => by simpa using h)
  · intro hstars
    rw [visiblePlaces_rating_eq vs places favorites reviews hk]
    refine hsorted.imp ?_
    intro a b hab hae
    by_contra hbne
    have h1 : 1 ≤ (getReviewStats reviews b.id).avg :=
      getReviewStats_avg_ge_one reviews b.id hbne (fun r hr => (hstars b.id r hr).1)
    have h0 := getReviewStats_avg_of_empty reviews a.id hae
    have hle : (getReviewStats reviews b.id).avg ≤ (getReviewStats reviews a.id).avg := by
      simpa using hab
    rw [h0] at hle
    linarith
  · intro a b heq hsub
    rw [visiblePlaces_rating_eq vs places favorites reviews hk]
    exact List.pair_sublist_mergeSort htrans htotal (by simp [heq]) hsub

/-- C4 witness at a concrete state: one reviewed place (five stars) and
two review-less places, rating sort. -/
theorem rating_sort_spec_witness :
    (visiblePlaces { tab := "discover", distanceLimit := 10000, searchText := "", sortBy := "rating" }
        [cornerCafe, bookStore, edgePlace] [] sampleReviews).Pairwise
      (fun a b => (getReviewStats sampleReviews b.id).avg ≤ (getReviewStats sampleReviews a.id).avg)
    ∧ (visiblePlaces { tab := "discover", distanceLimit := 10000, searchText := "", sortBy := "rating" }
        [cornerCafe, bookStore, edgePlace] [] sampleReviews).Pairwise
      (fun a b => sampleReviews a.id = [] → sampleReviews b.id = [])
    ∧ List.Sublist [bookStore, edgePlace] (visiblePlaces
        { tab := "discover", distanceLimit := 10000, searchText := "", sortBy := "rating" }
        [cornerCafe, bookStore, edgePlace] [] sampleReviews) := by
  have hstars : ∀ pid : Int, ∀ r ∈ sampleReviews pid, 1 ≤ r.stars ∧ r.stars ≤ 5 := by
    intro pid r hr
    simp only [sampleReviews] at hr
    split at hr
    · rw [List.mem_singleton] at hr
      subst hr
      exact ⟨by decide, by decide⟩
    · exact absurd hr (List.not_mem_nil r)
  have hpre : afterSearchFilter
      { tab := "discover", distanceLimit := 10000, searchText := "", sortBy := "rating" }
      [cornerCafe, bookStore, edgePlace] [] = [cornerCafe, bookStore, edgePlace] := by decide
  refine ⟨(rating_sort_spec _ _ _ _ rfl).1,
    (rating_sort_spec _ _ _ _ rfl).2.1 hstars,
    (rating_sort_spec _ _ _ _ rfl).2.2 bookStore edgePlace (by decide) ?_⟩
  rw [hpre]
  exact List.sublist_cons_self cornerCafe [bookStore, edgePlace]

/-- Under pairwise-distinct ids, filtering out one id equals erasing its
unique holder. -/
theorem filter_ne_eq_erase : ∀ (l : List Place) (p e : Place),
    l.Pairwise (fun a b => a.id ≠ b.id) → e ∈ l → e.id = p.id →
    l.filter (fun x => x.id != p.id) = l.erase e
  | [], _, e, _, he, _ => absurd he (List.not_mem_nil e)
  | a :: t, p, e, huniq, he, hid => by
    obtain ⟨hhead, htail⟩ := List.pairwise_cons.mp huniq
    rcases List.mem_cons.mp he with rfl | he'
    · rw [List.erase_cons_head]
      rw [List.filter_cons_of_neg (by simp [hid])]
      refine List.filter_eq_self.mpr ?_
      intro x hx
      have hne : x.id ≠ p.id := fun hxp => hhead x hx (hid.trans hxp.symm)
      simpa [bne_iff_ne] using hne
    · have hane : ¬(a == e) = true := by
        intro hbeq
        have ha : a = e := eq_of_beq hbeq
        exact hhead e he' (ha ▸ rfl)
      rw [List.erase_cons_tail hane]
      have haid : a.id ≠ p.id := fun hap => hhead e he' (hap.trans hid.symm)
      rw [List.filter_cons_of_pos (by simpa [bne_iff_ne] using haid)]
      rw [filter_ne_eq_erase t p e htail he' hid]

/-- C8: favorites behave as a set keyed by place id under toggling: with
pairwise-distinct ids, toggling an absent place prepends its snapshot with
the fresh `savedAt`; toggling a present place removes exactly its entry,
and toggling once more re-adds the snapshot with the newer timestamp; the
resulting set again has pairwise-distinct ids. -/
theorem toggleFav_spec (place e : Place) (prev : List Place) (t₁ t₂ : Nat)
    (huniq : prev.Pairwise (fun a b => a.id ≠ b.id)) :
    ((∀ x ∈ prev, x.id ≠ place.id) →
        toggleFav t₁ place prev = { place with savedAt := some t₁ } :: prev)
    ∧ (e ∈ prev → e.id = place.id →
        toggleFav t₁ place prev = prev.erase e
        ∧ toggleFav t₂ place (toggleFav t₁ place prev)
            = { place with savedAt := some t₂ } :: prev.erase e)
    ∧ (toggleFav t₁ place prev).Pairwise (fun a b => a.id ≠ b.id) := by
  refine ⟨?_, ?_, ?_⟩
  · intro habs
    unfold toggleFav
    rw [if_neg ?_]
    intro hany
    obtain ⟨x, hx, hxe⟩ := List.any_eq_true.mp hany
    exact habs x hx (by simpa using hxe)
  · intro he hid
    have hany : prev.any (fun x => x.id == place.id) = true :=
      List.any_eq_true.mpr ⟨e, he, by simp [hid]⟩
    have hfe := filter_ne_eq_erase prev place e huniq he hid
    have h₁ : toggleFav t₁ place prev = prev.erase e := by
      unfold toggleFav
      rw [if_pos hany]
      exact hfe
    refine ⟨h₁, ?_⟩
    rw [h₁]
    have habs : ∀ x ∈ prev.erase e, x.id ≠ place.id := by
      rw [← hfe]
      intro x hx
      simpa [bne_iff_ne] using (List.mem_filter.mp hx).2
    unfold toggleFav
    rw [if_neg ?_]
    intro hany2
    obtain ⟨x, hx, hxe⟩ := List.any_eq_true.mp hany2
    exact habs x hx (by simpa using hxe)
  · unfold toggleFav
    split_ifs with h
    · exact huniq.sublist (List.filter_sublist prev)
    · refine List.pairwise_cons.mpr ⟨?_, huniq⟩
      intro x hx
      intro hxid
      apply h
      exact List.any_eq_true.mpr ⟨x, hx, by simpa using hxid.symm⟩

/-- C8 witness: a saved snapshot of "Corner Cafe" is removed by one toggle
and re-added (with the new timestamp 20) by a second toggle, keeping ids
unique throughout. -/
theorem toggleFav_spec_witness :
    toggleFav 10 cornerCafe [{ cornerCafe with savedAt := some 5 }, farFavorite]
      = ([{ cornerCafe with savedAt := some 5 }, farFavorite] : List Place).erase
          { cornerCafe with savedAt := some 5 }
    ∧ toggleFav 20 cornerCafe
        (toggleFav 10 cornerCafe [{ cornerCafe with savedAt := some 5 }, farFavorite])
      = { cornerCafe with savedAt := some 20 }
          :: ([{ cornerCafe with savedAt := some 5 }, farFavorite] : List Place).erase
               { cornerCafe with savedAt := some 5 }
    ∧ (toggleFav 10 cornerCafe
        [{ cornerCafe with savedAt := some 5 }, farFavorite]).Pairwise
        (fun a b => a.id ≠ b.id) := by
  have h := toggleFav_spec cornerCafe { cornerCafe with savedAt := some 5 }
    [{ cornerCafe with savedAt := some 5 }, farFavorite] 10 20 (by decide)
  have hp := h.2.1 (by decide) (by decide)
  exact ⟨hp.1, hp.2, h.2.2⟩

/-- C9: adding a review with a non-empty trimmed comment prepends exactly
one review to that place's sequence, leaves the prior reviews of that
place and every other place's sequence unchanged, and preserves the
newest-first (non-increasing timestamp) order whenever the new timestamp
is at least every recorded one. -/
theorem addReview_spec (reviewStars : Nat) (reviewText : String) (now : Nat)
    (placeId : Int) (reviews : ReviewMap) (ht : jsTrim reviewText ≠ "") :
    addReview reviewStars reviewText now placeId reviews placeId
      = { stars := reviewStars, text := jsTrim reviewText, time := now }
          :: reviews placeId
    ∧ (∀ q : Int, q ≠ placeId →
        addReview reviewStars reviewText now placeId reviews q = reviews q)
    ∧ ((∀ r ∈ reviews placeId, r.time ≤ now) →
        (reviews placeId).Pairwise (fun a b => b.time ≤ a.time) →
        (addReview reviewStars reviewText now placeId reviews placeId).Pairwise
          (fun a b => b.time ≤ a.time)) := by
  have hfun : addReview reviewStars reviewText now placeId reviews
      = fun id => if id = placeId then
          { stars := reviewStars, text := jsTrim reviewText, time := now } :: reviews id
        else reviews id := by
    simp only [addReview]
    rw [if_neg ht]
  refine ⟨?_, ?_, ?_⟩
  · rw [hfun]
    simp
  · intro q hq
    rw [hfun]
    simp [hq]
  · intro hle hpair
    rw [hfun]
    simp only [if_pos rfl]
    exact List.Pairwise.cons (fun r hr => hle r hr) hpair

/-- C9 witness: a fresh review lands in front of the recorded five-star
review of place 1, place 2 is untouched, and the newest-first order is
kept. -/
theorem addReview_spec_witness :
    addReview 4 "Nice!" 200 1 sampleReviews 1
      = { stars := 4, text := jsTrim "Nice!", time := 200 } :: sampleReviews 1
    ∧ addReview 4 "Nice!" 200 1 sampleReviews 2 = sampleReviews 2
    ∧ (addReview 4 "Nice!" 200 1 sampleReviews 1).Pairwise
        (fun a b => b.time ≤ a.time) :=
  ⟨(addReview_spec 4 "Nice!" 200 1 sampleReviews (by decide)).1,
   (addReview_spec 4 "Nice!" 200 1 sampleReviews (by decide)).2.1 2 (by decide),
   (addReview_spec 4 "Nice!" 200 1 sampleReviews (by decide)).2.2
     (by decide) (by decide)⟩

/-- C10: ingest keeps a record exactly when the truthiness test on both
effective coordinates (direct field, else the computed center) passes, so
a record whose effective latitude or longitude is missing or exactly 0 —
e.g. a point on the equator or the prime meridian — is discarded. -/
theorem coordinate_truthiness_spec (hav : ℚ → ℚ → ℚ → ℚ → ℚ)
    (center : SearchCenter) (el : RawElement) :
    (qTruthy (jsOrQ el.lat (el.center.map Prod.fst)) = false
        ∨ qTruthy (jsOrQ el.lon (el.center.map Prod.snd)) = false →
      ingestElement hav center el = none)
    ∧ ((ingestElement hav center el).isSome = true
        ↔ qTruthy (jsOrQ el.lat (el.center.map Prod.fst)) = true
          ∧ qTruthy (jsOrQ el.lon (el.center.map Prod.snd)) = true)
    ∧ (∀ x : Option ℚ, qTruthy x = false ↔ x = none ∨ x = some 0) := by
  refine ⟨?_, ?_, ?_⟩
  · intro h
    rcases h with h | h <;> simp [ingestElement, h]
  · simp only [ingestElement]
    split
    next hc =>
      simp only [Bool.or_eq_true, Bool.not_eq_true'] at hc
      simp only [Option.isSome_none, Bool.false_eq_true, false_iff]
      rintro ⟨h1, h2⟩
      rcases hc with hc | hc <;> simp_all
    next hc =>
      simp only [Bool.or_eq_true, Bool.not_eq_true'] at hc
      push_neg at hc
      simp only [Option.isSome_some, true_iff]
      exact ⟨Bool.ne_false_iff.mp hc.1, Bool.ne_false_iff.mp hc.2⟩
  · intro x
    cases x <;> simp [qTruthy]

/-- C10 witness: a node exactly on the equator (latitude 0, longitude 77)
never enters the result set. -/
theorem coordinate_truthiness_spec_witness :
    ingestElement (fun _ _ _ _ => 3) { lat := 0, lng := 0, label := none }
      { id := 5, lat := some 0, lon := some 77, center := none, tags := none }
      = none :=
  (coordinate_truthiness_spec _ _ _).1 (Or.inl (by decide))
